import Mathlib

/-
Verification of the semantic image search backend: a shallow embedding of
the retrieval pipeline (embedding generation, vector-index management,
nearest-neighbor query construction with optional metadata filtering,
result materialization) as executable Lean definitions, with theorems
checking the documented behavior against the code.

External collaborators (the Qdrant vector store, the CLIP encoder, the
language model, the filesystem) are modelled as explicit state or as
function parameters; the repository functions are translated statement by
statement from the Python source.
-/

set_option linter.unusedVariables false
set_option maxRecDepth 8192

namespace SemanticImageSearch

/-- A payload field value as stored in the vector store: either a JSON
null (Python None) or a string. -/
inductive PVal where
  | null : PVal
  | str : String → PVal
deriving DecidableEq, Repr

/-- A point payload: an association list of field names to values, as the
Python dict literal builds it. -/
abbrev Payload := List (String × PVal)

/-- First-match lookup of a field in a payload (Python dict access; the
payloads built by the code have distinct keys). -/
def lookupField (p : Payload) (k : String) : Option PVal :=
  match p with
  | [] => none
  | (k₀, v) :: rest => if k₀ = k then some v else lookupField rest k

/-- models.FieldCondition with a models.MatchValue: an exact match of one
payload field against a concrete (string) value. -/
structure FieldCondition where
  key : String
  matchValue : String
deriving DecidableEq, Repr

/-- models.Filter with a must list: a conjunctive equality filter. -/
structure QFilter where
  must : List FieldCondition
deriving DecidableEq, Repr

/-- Qdrant match semantics for one condition: the field must be present
and equal to the match value; a null value never matches. -/
def matchesCondition (payload : Payload) (c : FieldCondition) : Bool :=
  match lookupField payload c.key with
  | some (PVal.str s) => s = c.matchValue
  | _ => false

/-- Qdrant filter semantics: no filter leaves the search unrestricted; a
filter requires every must condition to hold. -/
def matchesFilter (f : Option QFilter) (payload : Payload) : Bool :=
  match f with
  | none => true
  | some fl => fl.must.all (matchesCondition payload)

/-- A stored point: identifier, embedding vector, payload. Vector
components are modelled as rationals. -/
structure Point where
  id : Nat
  vector : List Rat
  payload : Payload
deriving DecidableEq, Repr

/-- A search hit: a point together with its similarity score. -/
structure ScoredPoint where
  point : Point
  score : Rat
deriving DecidableEq, Repr

/-- The distance metric of a collection. -/
inductive Distance where
  | cosine : Distance
  | euclid : Distance
deriving DecidableEq, Repr

/-- A collection definition on the server: name, vector size, distance
metric, on-disk flag. -/
structure CollectionDef where
  name : String
  size : Nat
  distance : Distance
  onDisk : Bool
deriving DecidableEq, Repr

/-- Server-side vector store state: the list of collection definitions
and the points of the configured collection in use. -/
structure QdrantState where
  collections : List CollectionDef
  points : List Point
deriving DecidableEq, Repr

/-- QdrantClientManager.ensure_collection: lists the existing
collections; creates the named collection (given size, COSINE distance,
on_disk true) only if its name is absent; otherwise no-op. The returned
Bool records whether a create_collection call was issued. -/
def ensure_collection (st : QdrantState) (name : String) (size : Nat) :
    QdrantState × Bool :=
  let existing := st.collections.map CollectionDef.name
  if name ∈ existing then (st, false)
  else ({ st with
          collections :=
            st.collections ++ [⟨name, size, Distance.cosine, true⟩] },
        true)

/-- Descending insertion by score, used to model the order in which the
store returns hits. -/
def insertByScore (x : ScoredPoint) : List ScoredPoint → List ScoredPoint
  | [] => [x]
  | y :: ys =>
      if y.score < x.score then x :: y :: ys else y :: insertByScore x ys

/-- Sort hits by descending score. -/
def sortByScoreDesc : List ScoredPoint → List ScoredPoint
  | [] => []
  | x :: xs => insertByScore x (sortByScoreDesc xs)

/-- client.query_points semantics: score every stored point that matches
the given filter (none = unrestricted), order by descending score, return
at most the first limit hits. The similarity function is a parameter. -/
def query_points (sim : List Rat → List Rat → Rat) (st : QdrantState)
    (query : List Rat) (limit : Nat) (query_filter : Option QFilter) :
    List ScoredPoint :=
  (sortByScoreDesc
    ((st.points.filter fun p => matchesFilter query_filter p.payload).map
      fun p => ⟨p, sim query p.vector⟩)).take limit

/-- IndexService.clear_collection: client.delete with
models.Filter(must=[]), which matches every point; matching points are
removed, the collection definitions are untouched. -/
def clear_collection (st : QdrantState) : QdrantState :=
  { st with
    points :=
      st.points.filter fun p => ! matchesFilter (some ⟨[]⟩) p.payload }

/-- Result of EmbeddingLoader.embed_text: a vector, the bare ValueError
raised before the try block for empty input, or the
SemanticImageSearchException wrapping an encoder failure. -/
inductive EmbedResult where
  | ok : List Rat → EmbedResult
  | valueError : EmbedResult
  | embeddingFailure : EmbedResult
deriving DecidableEq, Repr

/-- EmbeddingLoader.embed_text: raises ValueError when the text is empty
(before the try block), otherwise delegates to the encoder
(embedder.embed_query, a parameter here) and wraps an encoder failure as
the embedding exception. -/
def embed_text (embed_query : String → Option (List Rat))
    (text : String) : EmbedResult :=
  if text.isEmpty then EmbedResult.valueError
  else
    match embed_query text with
    | some vec => EmbedResult.ok vec
    | none => EmbedResult.embeddingFailure

/-- Result of a search call: the hits, or the wrapped exception. -/
inductive SearchOutcome where
  | ok : List ScoredPoint → SearchOutcome
  | searchFailed : SearchOutcome
deriving DecidableEq, Repr

/-- The filter the search methods build from a metadata_filter dict: one
FieldCondition per key with a MatchValue. -/
def build_filter (metadata_filter : List (String × String)) : QFilter :=
  ⟨metadata_filter.map fun kv => ⟨kv.1, kv.2⟩⟩

/-- ImageSearchService.search_by_text: embeds the query text, builds
q_filter from a truthy metadata_filter, and calls client.query_points
with the collection, the vector and the limit. As in the source, the
built q_filter is not passed to query_points. -/
def search_by_text (sim : List Rat → List Rat → Rat)
    (embed_query : String → Option (List Rat)) (st : QdrantState)
    (query_text : String) (k : Nat)
    (metadata_filter : Option (List (String × String))) : SearchOutcome :=
  match embed_text embed_query query_text with
  | EmbedResult.ok vector =>
      let q_filter : Option QFilter :=
        match metadata_filter with
        | some mf => if mf.isEmpty then none else some (build_filter mf)
        | none => none
      SearchOutcome.ok (query_points sim st vector k none)
  | _ => SearchOutcome.searchFailed

/-- ImageSearchService.search_by_image: embeds the query image, builds
q_filter from a truthy metadata_filter, and calls client.query_points
with the collection, the vector and the limit. As in the source, the
built q_filter is not passed to query_points. -/
def search_by_image (sim : List Rat → List Rat → Rat)
    (embed_image : String → Option (List Rat)) (st : QdrantState)
    (image_path : String) (k : Nat)
    (metadata_filter : Option (List (String × String))) : SearchOutcome :=
  match embed_image image_path with
  | some vector =>
      let q_filter : Option QFilter :=
        match metadata_filter with
        | some mf => if mf.isEmpty then none else some (build_filter mf)
        | none => none
      SearchOutcome.ok (query_points sim st vector k none)
  | none => SearchOutcome.searchFailed

/-- os.path.basename for the forward-slash paths used in the model: the
characters after the last slash. -/
def basename (p : String) : String :=
  String.mk
    (p.toList.foldl (fun acc c => if c = '/' then [] else acc ++ [c]) [])

/-- os.path.join for the forward-slash paths used in the model. -/
def joinPath (dir f : String) : String := dir ++ "/" ++ f

/-- The recognized image extensions, as in IndexService.index_folder. -/
def image_exts : List String := [".jpg", ".jpeg", ".png", ".webp"]

/-- The code of a character after ASCII lower-casing, as str.lower maps
the characters appearing in file extensions. -/
def lower_code (c : Char) : Nat :=
  let n := c.toNat
  if 65 ≤ n ∧ n ≤ 90 then n + 32 else n

/-- The lower-cased code sequence of a string. -/
def str_lower_codes (s : String) : List Nat := s.toList.map lower_code

/-- f.lower().endswith(e): suffix comparison after lower-casing. -/
def ends_with_lower (f e : String) : Bool :=
  (str_lower_codes e).isSuffixOf (str_lower_codes f)

/-- f.lower().endswith(exts): case-insensitive extension check. -/
def is_image_file (f : String) : Bool :=
  image_exts.any fun e => ends_with_lower f e

/-- Outcome of an indexing run: the resulting store state, the next fresh
identifier, and the number of upsert calls issued; indexingError is the
SemanticImageSearchException raised on an embedding or upsert failure,
carrying the state committed before the failure. -/
inductive IndexOutcome where
  | ok : QdrantState → Nat → Nat → IndexOutcome
  | indexingError : QdrantState → Nat → Nat → IndexOutcome
deriving DecidableEq, Repr

/-- The external collaborators of IndexService: the batch image encoder
(per-path, none = encoding failure) and an upsert failure oracle keyed by
the directory whose batch is upserted. -/
structure IndexEnv where
  embed : String → Option (List Rat)
  upsert_fails : String → Bool

/-- embed_image_paths: batch image embedding; any single failure fails
the whole batch call. -/
def embed_image_paths (embed : String → Option (List Rat)) :
    List String → Option (List (List Rat))
  | [] => some []
  | p :: ps =>
      match embed p with
      | none => none
      | some v =>
          match embed_image_paths embed ps with
          | none => none
          | some vs => some (v :: vs)

/-- The payload index_folder builds for file f in directory dirpath. -/
def folder_payload (dirpath category f : String) : Payload :=
  [("filename", PVal.str f),
   ("path", PVal.str (joinPath dirpath f)),
   ("category", PVal.str category)]

/-- Pair the batch vectors with their payloads into points with
sequentially generated fresh identifiers (zip semantics). -/
def mk_points (nextId : Nat) :
    List (List Rat) → List Payload → List Point
  | v :: vs, p :: ps => ⟨nextId, v, p⟩ :: mk_points (nextId + 1) vs ps
  | _, _ => []

/-- One entry of the os.walk enumeration: the directory path and the
plain file names directly inside it. -/
structure WalkEntry where
  dirpath : String
  files : List String
deriving DecidableEq, Repr

/-- A directory tree: the directory name, the files directly inside, and
the subdirectories. -/
inductive DirTree where
  | mk : String → List String → List DirTree → DirTree

/-- The name of the root directory of a tree. -/
def DirTree.name : DirTree → String
  | DirTree.mk n _ _ => n

mutual

/-- os.walk: top-down enumeration of a directory tree, each directory
with the files directly inside it. -/
def walk (parent : String) : DirTree → List WalkEntry
  | DirTree.mk name files subs =>
      ⟨joinPath parent name, files⟩ :: walkList (joinPath parent name) subs

/-- os.walk over a list of sibling subdirectories. -/
def walkList (parent : String) : List DirTree → List WalkEntry
  | [] => []
  | t :: ts => walk parent t ++ walkList parent ts

end

/-- The loop body of IndexService.index_folder over the os.walk entries:
for each directory, category := basename(dirpath); collect the files with
a recognized image extension together with their payloads; skip the
directory when no file matches (no batch submitted); otherwise embed the
batch and upsert the zipped points, aborting the whole run with the
indexing exception on an embedding or upsert failure. -/
def index_dirs (env : IndexEnv) (st : QdrantState) (nextId : Nat)
    (upserts : Nat) : List WalkEntry → IndexOutcome
  | [] => IndexOutcome.ok st nextId upserts
  | e :: rest =>
      let category := basename e.dirpath
      let image_files := e.files.filter is_image_file
      let image_paths := image_files.map (joinPath e.dirpath)
      let payloads := image_files.map (folder_payload e.dirpath category)
      if image_paths.isEmpty then index_dirs env st nextId upserts rest
      else
        match embed_image_paths env.embed image_paths with
        | none => IndexOutcome.indexingError st nextId upserts
        | some vectors =>
            if env.upsert_fails e.dirpath then
              IndexOutcome.indexingError st nextId upserts
            else
              let points := mk_points nextId vectors payloads
              index_dirs env
                { st with points := st.points ++ points }
                (nextId + points.length) (upserts + 1) rest

/-- IndexService.index_folder: walk the root directory tree (rooted under
the parent path) and run the per-directory indexing loop. -/
def index_folder (env : IndexEnv) (st : QdrantState) (nextId : Nat)
    (parent : String) (tree : DirTree) : IndexOutcome :=
  index_dirs env st nextId 0 (walk parent tree)

/-- IndexService.index_image: embed the single image, build the payload
from the basename, the path, and the explicit or omitted category
(Python None becomes a null payload value), upsert one record with a
fresh identifier. -/
def index_image (embed : String → Option (List Rat)) (st : QdrantState)
    (nextId : Nat) (image_path : String) (category : Option String) :
    IndexOutcome :=
  match embed image_path with
  | none => IndexOutcome.indexingError st nextId 0
  | some vec =>
      let payload : Payload :=
        [("filename", PVal.str (basename image_path)),
         ("path", PVal.str image_path),
         ("category",
          match category with
          | some c => PVal.str c
          | none => PVal.null)]
      IndexOutcome.ok
        { st with points := st.points ++ [⟨nextId, vec, payload⟩] }
        (nextId + 1) 1

/-- The output file name for the idx-th saved result. -/
def result_filename (idx : Nat) : String :=
  "result_" ++ toString idx ++ ".png"

/-- Outcome of ImageSearchService.save_results: whether the output
directory was created, the (output name, source path) pairs written in
order, and whether the persistence exception was raised. The files
written before a failure are not cleaned up. -/
structure SaveOutcome where
  outputDir : String
  dirCreated : Bool
  written : List (String × String)
  failed : Bool
deriving DecidableEq, Repr

/-- The save loop of save_results: for each result point in order, read
the source path from the payload, open and re-encode the image
(open_image models Image.open plus img.save; false = unreadable or
corrupt source), write result_idx.png; a failure stops the loop, keeping
the files already written. -/
def save_loop (open_image : String → Bool) (idx : Nat) :
    List Payload → List (String × String) × Bool
  | [] => ([], false)
  | payload :: rest =>
      match lookupField payload "path" with
      | some (PVal.str src) =>
          if open_image src then
            let r := save_loop open_image (idx + 1) rest
            ((result_filename idx, src) :: r.1, r.2)
          else ([], true)
      | _ => ([], true)

/-- ImageSearchService.save_results: the output directory is
retrieved_root/uuid_hex (uuid4().hex is a parameter here); the directory
is created before the loop, then every result point is saved in order
under an index-numbered name. -/
def save_results (open_image : String → Bool)
    (retrieved_root uuid_hex : String) (results : List ScoredPoint) :
    SaveOutcome :=
  let output_dir := joinPath retrieved_root uuid_hex
  let r := save_loop open_image 0 (results.map fun sp => sp.point.payload)
  ⟨output_dir, true, r.1, r.2⟩

/-- Python str.isspace / str.strip whitespace for the ASCII range: space,
tab, newline, carriage return, vertical tab, form feed. -/
def py_isspace (c : Char) : Bool :=
  c = ' ' || c = '\t' || c = '\n' || c = '\r' || c = '\x0b' || c = '\x0c'

/-- not user_query.strip(): true exactly when every character of the
string is whitespace (in particular for the empty string). -/
def py_strip_empty (s : String) : Bool :=
  s.toList.all py_isspace

/-- Result of QueryTranslator.translate: the rewritten caption, the bare
ValueError raised before the LLM call for an invalid query, or the
exception wrapping an LLM failure. -/
inductive TranslateOutcome where
  | caption : String → TranslateOutcome
  | valueError : TranslateOutcome
  | translationFailure : TranslateOutcome
deriving DecidableEq, Repr

/-- The prompt built from the fixed instruction template and the user
query. -/
def format_prompt (input_query : String) : String :=
  "You are an expert at rewriting queries for the CLIP image-text model. "
    ++ "Rewrite the user query into a short, concrete, descriptive image "
    ++ "caption. User Query: " ++ input_query
    ++ " Respond with only the rewritten caption."

/-- QueryTranslator.translate: raises ValueError when the query is not a
non-blank string, before any LLM call; otherwise formats the prompt,
invokes the LLM (a parameter; none = timeout or API failure), and strips
the returned caption. -/
def translate (llm : String → Option String) (user_query : String) :
    TranslateOutcome :=
  if py_strip_empty user_query then TranslateOutcome.valueError
  else
    match llm (format_prompt user_query) with
    | some final_caption => TranslateOutcome.caption final_caption.trim
    | none => TranslateOutcome.translationFailure

/-! Concrete instances used to evaluate the definitions. -/

/-- A stored point tagged with category dogs. -/
def dog_point : Point :=
  ⟨0, [1],
   [("filename", PVal.str "d1.jpg"),
    ("path", PVal.str "images/dogs/d1.jpg"),
    ("category", PVal.str "dogs")]⟩

/-- A store holding the configured collection and the single dogs point. -/
def demo_state : QdrantState :=
  ⟨[⟨"semantic-image-search", 512, Distance.cosine, true⟩], [dog_point]⟩

/-- A similarity function assigning every pair score 1. -/
def const_sim : List Rat → List Rat → Rat := fun _ _ => 1

/-- An encoder mapping every input to the vector [1]. -/
def demo_embed : String → Option (List Rat) := fun _ => some [1]

/-- A 512-dimension encoder that always succeeds. -/
def const_embed : String → Option (List Rat) :=
  fun _ => some (List.replicate 512 0)

/-! Theorems. -/

/-- C1: search_by_text and search_by_image build q_filter from a
non-empty metadata filter but never pass it to query_points, so a search
filtered on category cats against a store whose only point has category
dogs returns that dogs point, which does not satisfy the filter; the
filtered query the code intends would have returned zero results. This
refutes the claim that every returned payload satisfies the filter and
that an absent category yields zero results. -/
theorem search_filter_ignored :
    search_by_text const_sim demo_embed demo_state "a cat" 5
        (some [("category", "cats")])
      = SearchOutcome.ok [⟨dog_point, 1⟩]
    ∧ search_by_image const_sim demo_embed demo_state "query.png" 5
        (some [("category", "cats")])
      = SearchOutcome.ok [⟨dog_point, 1⟩]
    ∧ matchesFilter (some (build_filter [("category", "cats")]))
        dog_point.payload = false
    ∧ query_points const_sim demo_state [1] 5
        (some (build_filter [("category", "cats")])) = [] := by
  refine ⟨?_, ?_, ?_, ?_⟩ <;> rfl

/-- C2: ensure_collection is idempotent: the first call creates the named
collection exactly when its name is absent from the listed collections,
the second call with identical parameters is a no-op that creates
nothing, and exactly one collection with that name exists afterwards. -/
theorem ensure_collection_idempotent (st : QdrantState) (name : String)
    (size : Nat)
    (h : (st.collections.map CollectionDef.name).count name ≤ 1) :
    ensure_collection (ensure_collection st name size).1 name size
      = ((ensure_collection st name size).1, false)
    ∧ ((ensure_collection st name size).2 = true
        ↔ name ∉ st.collections.map CollectionDef.name)
    ∧ ((ensure_collection st name size).1.collections.map
        CollectionDef.name).count name = 1 := by
  by_cases hm : name ∈ st.collections.map CollectionDef.name
  · refine ⟨by simp [ensure_collection, hm], by simp [ensure_collection, hm], ?_⟩
    have h1 : 0 < (st.collections.map CollectionDef.name).count name :=
      List.count_pos_iff.mpr hm
    simp [ensure_collection, hm]
    omega
  · have hz : (st.collections.map CollectionDef.name).count name = 0 :=
      List.count_eq_zero.mpr hm
    refine ⟨?_, by simp [ensure_collection, hm], ?_⟩
    · simp [ensure_collection, hm]
    · simp [ensure_collection, hm, List.count_append, hz]

/-- A closed instance of ensure_collection_idempotent: starting from an
empty store, two identical calls create one collection and the second is
a no-op. -/
theorem ensure_collection_idempotent_witness :
    ((⟨[], []⟩ : QdrantState).collections.map CollectionDef.name).count
        "semantic-image-search" ≤ 1
    ∧ (ensure_collection
        (ensure_collection ⟨[], []⟩ "semantic-image-search" 512).1
        "semantic-image-search" 512
      = ((ensure_collection ⟨[], []⟩ "semantic-image-search" 512).1, false)
    ∧ ((ensure_collection ⟨[], []⟩ "semantic-image-search" 512).2 = true
        ↔ "semantic-image-search" ∉
            (⟨[], []⟩ : QdrantState).collections.map CollectionDef.name)
    ∧ ((ensure_collection ⟨[], []⟩ "semantic-image-search" 512).1.collections.map
        CollectionDef.name).count "semantic-image-search" = 1) :=
  ⟨by decide,
   ensure_collection_idempotent ⟨[], []⟩ "semantic-image-search" 512
     (by decide)⟩

/-- C4: given an encoder whose outputs all have the configured dimension
and which succeeds on every input, embed_text returns a vector of exactly
that dimension for every non-empty text, and returns the bare ValueError
(not the embedding exception, not a vector) on the empty string. -/
theorem embed_text_dim (embed_query : String → Option (List Rat))
    (dim : Nat)
    (hdim : ∀ t v, embed_query t = some v → v.length = dim)
    (htotal : ∀ t, (embed_query t).isSome = true) :
    (∀ t : String, t.isEmpty = false →
      ∃ v, embed_text embed_query t = EmbedResult.ok v ∧ v.length = dim)
    ∧ embed_text embed_query "" = EmbedResult.valueError := by
  refine ⟨fun t ht => ?_, rfl⟩
  cases hq : embed_query t with
  | none =>
      have := htotal t
      rw [hq] at this
      simp at this
  | some v =>
      exact ⟨v, by simp [embed_text, ht, hq], hdim t v hq⟩

/-- A closed instance of embed_text_dim with a 512-dimension encoder. -/
theorem embed_text_dim_witness :
    (∃ v, embed_text const_embed "red car" = EmbedResult.ok v
      ∧ v.length = 512)
    ∧ embed_text const_embed "" = EmbedResult.valueError := by
  have h := embed_text_dim const_embed 512
    (by intro t v hv; cases hv; rfl)
    (by intro t; rfl)
  exact ⟨h.1 "red car" (by decide), h.2⟩

/-- C7: after clear_collection, query_points returns zero results for
every similarity function, query vector, limit and filter, and the
collection definitions are unchanged. -/
theorem clear_then_query_empty (sim : List Rat → List Rat → Rat)
    (st : QdrantState) (q : List Rat) (k : Nat) (f : Option QFilter) :
    query_points sim (clear_collection st) q k f = []
    ∧ (clear_collection st).collections = st.collections := by
  have hp : (clear_collection st).points = [] := by
    simp [clear_collection, matchesFilter]
  exact ⟨by simp [query_points, hp, sortByScoreDesc], rfl⟩

/-- C8: translate rejects every string consisting solely of whitespace
characters with the ValueError, for every language model, hence before
any model invocation. -/
theorem translate_blank_rejected (s : String)
    (h : py_strip_empty s = true) :
    ∀ llm : String → Option String,
      translate llm s = TranslateOutcome.valueError := by
  intro llm
  simp [translate, h]

/-- A closed instance of translate_blank_rejected on a non-empty
whitespace-only string, which an emptiness check alone would accept. -/
theorem translate_blank_rejected_witness :
    py_strip_empty "   " = true
    ∧ "   ".isEmpty = false
    ∧ translate (fun _ => some "a red car") "   "
        = TranslateOutcome.valueError :=
  ⟨by decide, by decide,
   translate_blank_rejected "   " (by decide) (fun _ => some "a red car")⟩

/-- C9: index_image with the category omitted upserts one point whose
payload contains the category field with the null value: the field is
present (lookup succeeds) with value null, and no category equality
filter condition matches it. -/
theorem index_image_category_null (embed : String → Option (List Rat))
    (st : QdrantState) (nextId : Nat) (image_path : String)
    (v : List Rat) (h : embed image_path = some v) :
    ∃ pt : Point,
      index_image embed st nextId image_path none =
        IndexOutcome.ok { st with points := st.points ++ [pt] }
          (nextId + 1) 1
      ∧ lookupField pt.payload "category" = some PVal.null
      ∧ lookupField pt.payload "category" ≠ none
      ∧ ∀ c : String,
          matchesCondition pt.payload ⟨"category", c⟩ = false := by
  refine ⟨⟨nextId, v,
    [("filename", PVal.str (basename image_path)),
     ("path", PVal.str image_path),
     ("category", PVal.null)]⟩, ?_, ?_, ?_, ?_⟩
  · simp [index_image, h]
  · simp [lookupField]
  · simp [lookupField]
  · intro c
    simp [matchesCondition, lookupField]

/-- A closed instance of index_image_category_null. -/
theorem index_image_category_null_witness :
    demo_embed "images/c1.png" = some [1]
    ∧ ∃ pt : Point,
        index_image demo_embed ⟨[], []⟩ 0 "images/c1.png" none =
          IndexOutcome.ok
            { (⟨[], []⟩ : QdrantState) with points := [] ++ [pt] } (0 + 1) 1
        ∧ lookupField pt.payload "category" = some PVal.null
        ∧ lookupField pt.payload "category" ≠ none
        ∧ ∀ c : String,
            matchesCondition pt.payload ⟨"category", c⟩ = false :=
  ⟨rfl, index_image_category_null demo_embed ⟨[], []⟩ 0 "images/c1.png" [1] rfl⟩

/-- The source path recorded in a payload (the payloads built by the
indexing code always carry one). -/
def payload_path (p : Payload) : String :=
  match lookupField p "path" with
  | some (PVal.str s) => s
  | _ => ""

/-- Refinement comparison definition, following the words of the spec:
the expected saved files are index-numbered output names from idx
onwards, paired with the source paths in result order. -/
def spec_numbered_files (idx : Nat) :
    List String → List (String × String)
  | [] => []
  | s :: rest => (result_filename idx, s) :: spec_numbered_files (idx + 1) rest

/-- One expected file per result. -/
theorem spec_numbered_files_length :
    ∀ (l : List String) (idx : Nat),
      (spec_numbered_files idx l).length = l.length := by
  intro l
  induction l with
  | nil => intro idx; rfl
  | cons s rest ih => intro idx; simp [spec_numbered_files, ih]

/-- The expected output names are result_idx, result_idx+1, and so on. -/
theorem spec_numbered_files_fst :
    ∀ (l : List String) (idx : Nat),
      (spec_numbered_files idx l).map Prod.fst
        = (List.range' idx l.length).map result_filename := by
  intro l
  induction l with
  | nil => intro idx; rfl
  | cons s rest ih =>
      intro idx
      simp [spec_numbered_files, List.range', ih]

/-- Unrolling the save loop over a prefix of payloads that all carry a
readable source path: the prefix writes its numbered files and the loop
continues on the remainder with the shifted index. -/
theorem save_loop_append (o : String → Bool) :
    ∀ (ps qs : List Payload) (idx : Nat),
      (∀ p ∈ ps, ∃ s, lookupField p "path" = some (PVal.str s)
        ∧ o s = true) →
      save_loop o idx (ps ++ qs)
        = (spec_numbered_files idx (ps.map payload_path)
            ++ (save_loop o (idx + ps.length) qs).1,
           (save_loop o (idx + ps.length) qs).2) := by
  intro ps
  induction ps with
  | nil => intro qs idx h; simp [spec_numbered_files]
  | cons p rest ih =>
      intro qs idx h
      obtain ⟨s, hs, ho⟩ := h p (List.mem_cons_self p rest)
      have hrest : ∀ q ∈ rest, ∃ s, lookupField q "path" = some (PVal.str s)
          ∧ o s = true :=
        fun q hq => h q (List.mem_cons_of_mem p hq)
      have hpp : payload_path p = s := by simp [payload_path, hs]
      have harith : idx + (rest.length + 1) = (idx + 1) + rest.length := by
        omega
      simp only [List.cons_append, save_loop, hs, ho, if_true,
        List.append_eq]
      rw [ih qs (idx + 1) hrest]
      simp [spec_numbered_files, hpp, harith]

/-- C5: when every result payload carries a source path the filesystem
can open, save_results creates the fresh output directory and writes
exactly one re-encoded file per result, named result_0, result_1, and so
on, paired with the source paths in result order, with no failure. -/
theorem save_results_spec (o : String → Bool) (root uhex : String)
    (results : List ScoredPoint)
    (h : ∀ sp ∈ results, ∃ s,
      lookupField sp.point.payload "path" = some (PVal.str s)
      ∧ o s = true) :
    save_results o root uhex results
      = ⟨joinPath root uhex, true,
         spec_numbered_files 0
           (results.map fun sp => payload_path sp.point.payload),
         false⟩
    ∧ (save_results o root uhex results).written.length = results.length
    ∧ (save_results o root uhex results).written.map Prod.fst
        = (List.range results.length).map result_filename := by
  have hps : ∀ p ∈ results.map fun sp => sp.point.payload,
      ∃ s, lookupField p "path" = some (PVal.str s) ∧ o s = true := by
    intro p hp
    obtain ⟨sp, hsp, rfl⟩ := List.mem_map.mp hp
    exact h sp hsp
  have hloop := save_loop_append o
    (results.map fun sp => sp.point.payload) [] 0 hps
  have hmain : save_results o root uhex results
      = ⟨joinPath root uhex, true,
         spec_numbered_files 0
           (results.map fun sp => payload_path sp.point.payload),
         false⟩ := by
    simp only [save_results, List.append_nil] at hloop ⊢
    rw [hloop]
    simp only [save_loop, List.map_map, List.append_nil]
    rfl
  refine ⟨hmain, ?_, ?_⟩
  · rw [hmain]
    simp [spec_numbered_files_length]
  · rw [hmain]
    simp only [spec_numbered_files_fst, List.length_map,
      List.range_eq_range']

/-- The k=3 result set used to instantiate save_results_spec. -/
def three_results : List ScoredPoint :=
  [⟨dog_point, 1⟩, ⟨dog_point, 1⟩, ⟨dog_point, 1⟩]

/-- A closed instance of save_results_spec on a k=3 result set. -/
theorem save_results_spec_witness :
    save_results (fun _ => true) "data/retrieved" "abc123" three_results
      = ⟨joinPath "data/retrieved" "abc123", true,
         spec_numbered_files 0
           (three_results.map fun sp => payload_path sp.point.payload),
         false⟩
    ∧ (save_results (fun _ => true) "data/retrieved" "abc123"
        three_results).written.length = 3
    ∧ (save_results (fun _ => true) "data/retrieved" "abc123"
        three_results).written.map Prod.fst
        = (List.range 3).map result_filename :=
  save_results_spec (fun _ => true) "data/retrieved" "abc123"
    three_results
    (by intro sp hsp
        fin_cases hsp <;> exact ⟨"images/dogs/d1.jpg", rfl, rfl⟩)

/-- C10: save_results is not atomic on failure: with a result list whose
prefix is readable and whose next source image fails to open, the output
directory is still created, the files for the prefix remain written with
their numbered names, and the persistence failure is reported; nothing
is cleaned up. -/
theorem save_results_partial (o : String → Bool) (root uhex : String)
    (pre : List ScoredPoint) (bad : ScoredPoint) (rest : List ScoredPoint)
    (hpre : ∀ sp ∈ pre, ∃ s,
      lookupField sp.point.payload "path" = some (PVal.str s)
      ∧ o s = true)
    (hbad : ∀ s, lookupField bad.point.payload "path" = some (PVal.str s)
      → o s = false) :
    save_results o root uhex (pre ++ bad :: rest)
      = ⟨joinPath root uhex, true,
         spec_numbered_files 0
           (pre.map fun sp => payload_path sp.point.payload),
         true⟩
    ∧ (save_results o root uhex (pre ++ bad :: rest)).written.length
        = pre.length := by
  have hps : ∀ p ∈ pre.map fun sp => sp.point.payload,
      ∃ s, lookupField p "path" = some (PVal.str s) ∧ o s = true := by
    intro p hp
    obtain ⟨sp, hsp, rfl⟩ := List.mem_map.mp hp
    exact hpre sp hsp
  have hbadloop : ∀ idx, save_loop o idx
      (bad.point.payload :: rest.map fun sp => sp.point.payload)
      = ([], true) := by
    intro idx
    cases hl : lookupField bad.point.payload "path" with
    | none => simp [save_loop, hl]
    | some v =>
        cases v with
        | null => simp [save_loop, hl]
        | str s =>
            have := hbad s hl
            simp [save_loop, hl, this]
  have hloop := save_loop_append o (pre.map fun sp => sp.point.payload)
    (bad.point.payload :: rest.map fun sp => sp.point.payload) 0 hps
  have hmain : save_results o root uhex (pre ++ bad :: rest)
      = ⟨joinPath root uhex, true,
         spec_numbered_files 0
           (pre.map fun sp => payload_path sp.point.payload),
         true⟩ := by
    simp only [save_results, List.map_append, List.map_cons]
    rw [hloop]
    simp only [hbadloop, List.map_map, List.append_nil]
    rfl
  refine ⟨hmain, ?_⟩
  rw [hmain]
  simp [spec_numbered_files_length]

/-- A result point whose source image cannot be opened. -/
def bad_result : ScoredPoint :=
  ⟨⟨7, [1], [("path", PVal.str "bad.png")]⟩, 1⟩

/-- A filesystem on which every source opens except bad.png. -/
def demo_fs : String → Bool := fun s => ! (s == "bad.png")

/-- A closed instance of save_results_partial: the second source image
fails to open; result_0.png remains written, the directory remains, the
failure is reported. -/
theorem save_results_partial_witness :
    save_results demo_fs "data/retrieved" "abc123"
        ([⟨dog_point, 1⟩] ++ bad_result :: [⟨dog_point, 1⟩])
      = ⟨joinPath "data/retrieved" "abc123", true,
         spec_numbered_files 0
           (([⟨dog_point, 1⟩] : List ScoredPoint).map
             fun sp => payload_path sp.point.payload),
         true⟩
    ∧ (save_results demo_fs "data/retrieved" "abc123"
        ([⟨dog_point, 1⟩] ++ bad_result :: [⟨dog_point, 1⟩])).written.length
        = 1 :=
  save_results_partial demo_fs "data/retrieved" "abc123"
    [⟨dog_point, 1⟩] bad_result [⟨dog_point, 1⟩]
    (by intro sp hsp
        fin_cases hsp
        exact ⟨"images/dogs/d1.jpg", rfl, rfl⟩)
    (by intro s hs
        simp [bad_result, lookupField] at hs
        subst hs
        rfl)

/-- Mapping preserves emptiness. -/
theorem isEmpty_map {α β : Type} (f : α → β) (l : List α) :
    (l.map f).isEmpty = l.isEmpty := by
  cases l <;> rfl

/-- Refinement comparison definition, following the words of the spec:
the payloads expected from one walked directory are one payload per file
with a recognized image extension, tagged with the basename of the
directory (the immediate parent of those files). -/
def spec_dir_payloads (e : WalkEntry) : List Payload :=
  (e.files.filter is_image_file).map
    (folder_payload e.dirpath (basename e.dirpath))

/-- Refinement comparison definition: the payloads expected from a whole
walk, in walk order. -/
def spec_tree_payloads : List WalkEntry → List Payload
  | [] => []
  | e :: rest => spec_dir_payloads e ++ spec_tree_payloads rest

/-- Refinement comparison definition: the number of batches the spec
expects, one per walked directory with at least one matching file. -/
def spec_batch_count : List WalkEntry → Nat
  | [] => 0
  | e :: rest =>
      (if (e.files.filter is_image_file).isEmpty then 0 else 1)
        + spec_batch_count rest

/-- A batch embedding over a total encoder succeeds and is
length-preserving. -/
theorem embed_image_paths_total (embed : String → Option (List Rat))
    (h : ∀ p, (embed p).isSome = true) :
    ∀ paths : List String, ∃ vs,
      embed_image_paths embed paths = some vs
      ∧ vs.length = paths.length := by
  intro paths
  induction paths with
  | nil => exact ⟨[], rfl, rfl⟩
  | cons p rest ih =>
      obtain ⟨vs, hvs, hlen⟩ := ih
      cases hp : embed p with
      | none =>
          have hh := h p
          rw [hp] at hh
          simp at hh
      | some v =>
          exact ⟨v :: vs, by simp [embed_image_paths, hp, hvs], by
            simp [hlen]⟩

/-- Zipping equal-length vectors and payloads into points keeps exactly
the payloads. -/
theorem mk_points_payloads :
    ∀ (vs : List (List Rat)) (ps : List Payload) (n : Nat),
      vs.length = ps.length →
      (mk_points n vs ps).map Point.payload = ps := by
  intro vs
  induction vs with
  | nil =>
      intro ps n h
      cases ps with
      | nil => rfl
      | cons p ps => simp at h
  | cons v vs ih =>
      intro ps n h
      cases ps with
      | nil => simp at h
      | cons p ps =>
          simp only [List.length_cons] at h
          simp [mk_points, ih ps (n + 1) (by omega)]

/-- The indexing loop under a total encoder and a non-failing store: it
succeeds, issues one upsert per directory holding at least one matching
file, and appends exactly the expected payloads to the collection, in
walk order, leaving the collection definitions unchanged. -/
theorem index_dirs_ok (env : IndexEnv)
    (hembed : ∀ p, (env.embed p).isSome = true)
    (hupsert : ∀ d, env.upsert_fails d = false) :
    ∀ (entries : List WalkEntry) (st : QdrantState) (nextId upserts : Nat),
      ∃ st' n',
        index_dirs env st nextId upserts entries
          = IndexOutcome.ok st' n' (upserts + spec_batch_count entries)
        ∧ st'.points.map Point.payload
            = st.points.map Point.payload ++ spec_tree_payloads entries
        ∧ st'.collections = st.collections := by
  intro entries
  induction entries with
  | nil =>
      intro st nextId upserts
      exact ⟨st, nextId, by simp [index_dirs, spec_batch_count], by
        simp [spec_tree_payloads], rfl⟩
  | cons e rest ih =>
      intro st nextId upserts
      by_cases him : ((e.files.filter is_image_file).isEmpty : Bool) = true
      · obtain ⟨st', n', hok, hpts, hcols⟩ := ih st nextId upserts
        refine ⟨st', n', ?_, ?_, hcols⟩
        · have hstep : index_dirs env st nextId upserts (e :: rest)
              = index_dirs env st nextId upserts rest := by
            simp [index_dirs, isEmpty_map, him]
          rw [hstep, hok]
          simp [spec_batch_count, him]
        · rw [hpts]
          simp [spec_tree_payloads, spec_dir_payloads,
            List.isEmpty_iff.mp him]
      · obtain ⟨vs, hvs, hlen⟩ := embed_image_paths_total env.embed hembed
          ((e.files.filter is_image_file).map (joinPath e.dirpath))
        set ps := (e.files.filter is_image_file).map
          (folder_payload e.dirpath (basename e.dirpath)) with hdefps
        set pts := mk_points nextId vs ps with hdefpts
        set st2 : QdrantState :=
          { st with points := st.points ++ pts } with hdefst2
        have hplen : vs.length = ps.length := by
          rw [hdefps]
          simp at hlen ⊢
          exact hlen
        have hstep : index_dirs env st nextId upserts (e :: rest)
            = index_dirs env st2 (nextId + pts.length) (upserts + 1)
                rest := by
          rw [hdefst2, hdefpts, hdefps]
          simp [index_dirs, isEmpty_map, him, hvs, hupsert e.dirpath]
        obtain ⟨st', n', hok, hpts, hcols⟩ :=
          ih st2 (nextId + pts.length) (upserts + 1)
        refine ⟨st', n', ?_, ?_, by rw [hcols]⟩
        · rw [hstep, hok]
          have harith : upserts + 1 + spec_batch_count rest
              = upserts + spec_batch_count (e :: rest) := by
            simp [spec_batch_count, him]
            omega
          rw [harith]
        · rw [hpts, hdefst2]
          simp only [List.map_append, hdefpts,
            mk_points_payloads vs ps nextId hplen,
            spec_tree_payloads, spec_dir_payloads, List.append_assoc,
            hdefps]

/-- C3: index_folder over any directory tree with a total encoder and a
non-failing store indexes exactly the files with a recognized image
extension (case-insensitive .jpg, .jpeg, .png, .webp), each tagged with
the basename of its immediate parent directory, submits one batch per
directory holding at least one matching file (none for the others), and
does not error. -/
theorem index_folder_items (env : IndexEnv) (st : QdrantState)
    (nextId : Nat) (parent : String) (tree : DirTree)
    (hembed : ∀ p, (env.embed p).isSome = true)
    (hupsert : ∀ d, env.upsert_fails d = false) :
    ∃ st' n',
      index_folder env st nextId parent tree
        = IndexOutcome.ok st' n' (spec_batch_count (walk parent tree))
      ∧ st'.points.map Point.payload
          = st.points.map Point.payload
            ++ spec_tree_payloads (walk parent tree)
      ∧ st'.collections = st.collections := by
  have h := index_dirs_ok env hembed hupsert (walk parent tree) st nextId 0
  simpa [index_folder] using h

/-- The cats and dogs corpus: two cat images (one upper-case extension),
three dog images, and a directory with no matching file. -/
def demo_tree : DirTree :=
  DirTree.mk "images" []
    [DirTree.mk "cats" ["c1.jpg", "c2.PNG"] [],
     DirTree.mk "dogs" ["d1.jpg", "d2.jpeg", "d3.webp"] [],
     DirTree.mk "docs" ["readme.txt"] []]

/-- An indexing environment whose encoder and store never fail. -/
def demo_env : IndexEnv := ⟨demo_embed, fun _ => false⟩

/-- A closed instance of index_folder_items on the cats and dogs corpus:
exactly five items, in two batches, with the docs directory contributing
nothing; every payload carries the immediate parent directory as its
category. -/
theorem index_folder_items_witness :
    (∀ p, (demo_env.embed p).isSome = true)
    ∧ (∀ d, demo_env.upsert_fails d = false)
    ∧ (∃ st' n',
        index_folder demo_env ⟨[], []⟩ 0 "root" demo_tree
          = IndexOutcome.ok st' n'
              (spec_batch_count (walk "root" demo_tree))
        ∧ st'.points.map Point.payload
            = ((⟨[], []⟩ : QdrantState)).points.map Point.payload
              ++ spec_tree_payloads (walk "root" demo_tree)
        ∧ st'.collections = (⟨[], []⟩ : QdrantState).collections)
    ∧ (spec_tree_payloads (walk "root" demo_tree)).length = 5
    ∧ spec_batch_count (walk "root" demo_tree) = 2
    ∧ (spec_tree_payloads (walk "root" demo_tree)).map
        (fun p => lookupField p "category")
        = [some (PVal.str "cats"), some (PVal.str "cats"),
           some (PVal.str "dogs"), some (PVal.str "dogs"),
           some (PVal.str "dogs")] :=
  ⟨fun _ => rfl, fun _ => rfl,
   index_folder_items demo_env ⟨[], []⟩ 0 "root" demo_tree
     (fun _ => rfl) (fun _ => rfl),
   by decide, by decide, by decide⟩

/-- The indexing loop is sequential: running it over a concatenation
first runs the prefix, and a failure in the prefix short-circuits. -/
theorem index_dirs_append (env : IndexEnv) :
    ∀ (pre rest : List WalkEntry) (st : QdrantState) (n u : Nat),
      index_dirs env st n u (pre ++ rest)
        = match index_dirs env st n u pre with
          | IndexOutcome.ok st' n' u' => index_dirs env st' n' u' rest
          | IndexOutcome.indexingError st' n' u' =>
              IndexOutcome.indexingError st' n' u' := by
  intro pre
  induction pre with
  | nil =>
      intro rest st n u
      simp [index_dirs]
  | cons e pre ih =>
      intro rest st n u
      by_cases him :
          (((e.files.filter is_image_file).map
            (joinPath e.dirpath)).isEmpty : Bool) = true
      · have h1 : index_dirs env st n u ((e :: pre) ++ rest)
            = index_dirs env st n u (pre ++ rest) := by
          simp [index_dirs, him]
        have h2 : index_dirs env st n u (e :: pre)
            = index_dirs env st n u pre := by
          simp [index_dirs, him]
        rw [h1, h2, ih]
      · cases hv : embed_image_paths env.embed
            ((e.files.filter is_image_file).map (joinPath e.dirpath)) with
        | none =>
            have h1 : index_dirs env st n u ((e :: pre) ++ rest)
                = IndexOutcome.indexingError st n u := by
              simp [index_dirs, him, hv]
            have h2 : index_dirs env st n u (e :: pre)
                = IndexOutcome.indexingError st n u := by
              simp [index_dirs, him, hv]
            rw [h1, h2]
        | some vs =>
            by_cases hu : env.upsert_fails e.dirpath = true
            · have h1 : index_dirs env st n u ((e :: pre) ++ rest)
                  = IndexOutcome.indexingError st n u := by
                simp [index_dirs, him, hv, hu]
              have h2 : index_dirs env st n u (e :: pre)
                  = IndexOutcome.indexingError st n u := by
                simp [index_dirs, him, hv, hu]
              rw [h1, h2]
            · simp only [Bool.not_eq_true] at hu
              set pts := mk_points n vs
                ((e.files.filter is_image_file).map
                  (folder_payload e.dirpath (basename e.dirpath)))
                with hdefpts
              have h1 : index_dirs env st n u ((e :: pre) ++ rest)
                  = index_dirs env { st with points := st.points ++ pts }
                      (n + pts.length) (u + 1) (pre ++ rest) := by
                rw [hdefpts]
                simp [index_dirs, him, hv, hu]
              have h2 : index_dirs env st n u (e :: pre)
                  = index_dirs env { st with points := st.points ++ pts }
                      (n + pts.length) (u + 1) pre := by
                rw [hdefpts]
                simp [index_dirs, him, hv, hu]
              rw [h1, h2, ih]

/-- C6: during index_folder, when the walk reaches a directory holding at
least one matching image whose batch embedding fails or whose upsert
fails, and the directories walked before it all succeeded, the whole run
stops with the indexing exception — no later directory is processed, for
every possible remainder of the walk — and the error carries exactly the
state committed by the earlier directories (no rollback). -/
theorem index_folder_fail_fast (env : IndexEnv) (st st' : QdrantState)
    (n n' u' : Nat) (parent : String) (tree : DirTree)
    (pre : List WalkEntry) (e : WalkEntry) (post : List WalkEntry)
    (hwalk : walk parent tree = pre ++ e :: post)
    (hpre : index_dirs env st n 0 pre = IndexOutcome.ok st' n' u')
    (himg : ((e.files.filter is_image_file).isEmpty : Bool) = false)
    (hfail : embed_image_paths env.embed
        ((e.files.filter is_image_file).map (joinPath e.dirpath)) = none
      ∨ env.upsert_fails e.dirpath = true) :
    index_folder env st n parent tree
      = IndexOutcome.indexingError st' n' u' := by
  rw [index_folder, hwalk, index_dirs_append env pre (e :: post) st n 0,
    hpre]
  have him : (((e.files.filter is_image_file).map
      (joinPath e.dirpath)).isEmpty : Bool) = false := by
    rw [isEmpty_map]
    exact himg
  rcases hfail with hv | hu
  · simp [index_dirs, him, hv]
  · cases hv : embed_image_paths env.embed
        ((e.files.filter is_image_file).map (joinPath e.dirpath)) with
    | none => simp [index_dirs, him, hv]
    | some vs => simp [index_dirs, him, hv, hu]

/-- The walk prefix before the failing directory of the witness run. -/
def fail_pre : List WalkEntry :=
  [⟨"root/images", []⟩, ⟨"root/images/cats", ["c1.jpg", "c2.PNG"]⟩]

/-- The failing directory of the witness run. -/
def fail_entry : WalkEntry :=
  ⟨"root/images/dogs", ["d1.jpg", "d2.jpeg", "d3.webp"]⟩

/-- The walk remainder after the failing directory of the witness run. -/
def fail_post : List WalkEntry :=
  [⟨"root/images/docs", ["readme.txt"]⟩]

/-- An environment whose encoder fails on one dog image and whose store
never fails. -/
def fail_env : IndexEnv :=
  ⟨fun p => if p = "root/images/dogs/d1.jpg" then none else some [1],
   fun _ => false⟩

/-- The state committed by the directories before the failure: the two
cat points. -/
def cats_state : QdrantState :=
  ⟨[],
   [⟨0, [1], folder_payload "root/images/cats" "cats" "c1.jpg"⟩,
    ⟨1, [1], folder_payload "root/images/cats" "cats" "c2.PNG"⟩]⟩

/-- A closed instance of index_folder_fail_fast on the cats and dogs
corpus: the dogs batch fails to embed, the run stops with the indexing
error, and the two cat points committed beforehand remain. -/
theorem index_folder_fail_fast_witness :
    walk "root" demo_tree = fail_pre ++ fail_entry :: fail_post
    ∧ index_dirs fail_env ⟨[], []⟩ 0 0 fail_pre
        = IndexOutcome.ok cats_state 2 1
    ∧ ((fail_entry.files.filter is_image_file).isEmpty : Bool) = false
    ∧ embed_image_paths fail_env.embed
        ((fail_entry.files.filter is_image_file).map
          (joinPath fail_entry.dirpath)) = none
    ∧ index_folder fail_env ⟨[], []⟩ 0 "root" demo_tree
        = IndexOutcome.indexingError cats_state 2 1 :=
  ⟨by decide, by decide, by decide, by decide,
   index_folder_fail_fast fail_env ⟨[], []⟩ cats_state 0 2 1 "root"
     demo_tree fail_pre fail_entry fail_post (by decide) (by decide)
     (by decide) (Or.inl (by decide))⟩

end SemanticImageSearch
